import Mathlib

/-!
Shallow embedding of the ffconv repository (package `ffconv`: `file_processor.py`,
`stream_processors.py`, `profiles.py`, `main.py`, `utils.py`) and proofs about it.

The embedding models the pure decision logic directly and models external effects
(ffmpeg/ffprobe/rm/mv invocations) as explicit event traces and outcome oracles:
each external invocation's success or failure is a parameter, and the functions
return the commands/events the Python code would perform.
-/

namespace FFConv

/-- Result dict produced by `StreamProcessor.process`
(`{'input': ..., 'index': ...}` plus optional `'language'` key).
`language = none` models the key being absent. -/
structure ConversionResult where
  input : String
  index : Nat
  language : Option String
deriving Repr, DecidableEq

/-- Python truthiness of an optional string (`if stream.get('language')`):
an absent key and the empty string are both falsy. -/
def truthyStr : Option String → Bool
  | none => false
  | some s => s ≠ ""

/-- The map directive `'{}:{}'.format(inputs.index(stream['input']), stream['index'])`
from `FileProcessor._build_merge_params`. -/
def mapDirective (inputs : List String) (s : ConversionResult) : String :=
  toString (inputs.indexOf s.input) ++ ":" ++ toString s.index

/-- The two metadata arguments `['-metadata:s:<slot>', 'language=<lang>']`
appended by `FileProcessor._build_merge_params` when the language is set. -/
def metaDirective (slot : Nat) (lang : String) : List String :=
  ["-metadata:s:" ++ toString slot, "language=" ++ lang]

/-- Loop body of `FileProcessor._build_merge_params`: threads the `inputs`,
`maps` and `meta` lists through the iteration over `streams`. -/
def buildMergeParamsAux :
    List ConversionResult → List String → List String → List String →
      List String × List String × List String
  | [], inputs, maps, meta => (inputs, maps, meta)
  | s :: rest, inputs, maps, meta =>
      let inputs1 := if s.input ∈ inputs then inputs else inputs ++ [s.input]
      let maps1 := maps ++ [mapDirective inputs1 s]
      let meta1 := meta ++ (if truthyStr s.language then
          metaDirective (maps1.length - 1) (s.language.getD "") else [])
      buildMergeParamsAux rest inputs1 maps1 meta1

/-- `FileProcessor._build_merge_params(streams, [], [], [])`. -/
def buildMergeParams (streams : List ConversionResult) :
    List String × List String × List String :=
  buildMergeParamsAux streams [] [] []

/-- Specification-side helper: the elements of a list not yet in `seen`,
in first-occurrence order. -/
def dedupFOFrom (seen : List String) : List String → List String
  | [] => []
  | x :: xs => if x ∈ seen then dedupFOFrom seen xs
               else x :: dedupFOFrom (seen ++ [x]) xs

/-- Specification-side list of distinct source files in first-occurrence order. -/
def specInputs (streams : List ConversionResult) : List String :=
  dedupFOFrom [] (streams.map (·.input))

/-- Specification-side map directives: one per stream in stream order, whose input
index is the stream file's position in the final de-duplicated input list. -/
def specMaps (finalInputs : List String) (streams : List ConversionResult) :
    List String :=
  streams.map fun s =>
    toString (finalInputs.indexOf s.input) ++ ":" ++ toString s.index

/-- Specification-side metadata directives: language attached by map-slot index,
where the slot of stream `k` (0-based, counting from `start`) is its position in
the map list. -/
def specMeta (start : Nat) : List ConversionResult → List String
  | [] => []
  | s :: rest =>
      (if truthyStr s.language then
          metaDirective start (s.language.getD "") else [])
        ++ specMeta (start + 1) rest

/-- Example streams of testable property 4: video `#0` not converted,
audio `#1` converted to `audio-1.mp3` with language `spa`, subtitle `#2`
not converted with language `eng`, all probed from `movie.mkv`. -/
def exampleMergeStreams : List ConversionResult :=
  [⟨"movie.mkv", 0, none⟩,
   ⟨"audio-1.mp3", 0, some "spa"⟩,
   ⟨"movie.mkv", 2, some "eng"⟩]

/-- `sorted(mapping.items())` in `VideoProcessor._init_stream`: the
height-to-max-reference-frames entries in ascending height order. -/
def sortPairsByKey (m : List (Nat × Nat)) : List (Nat × Nat) :=
  m.insertionSort (fun a b => a.1 ≤ b.1)

/-- The loop in `VideoProcessor._init_stream`: `self.max_refs = 4`, then scan
the sorted mapping and stop at the first entry whose height bound is `≥` the
stream height (`if height <= h: self.max_refs = f; break`). -/
def maxRefsScan (height : Nat) : List (Nat × Nat) → Nat
  | [] => 4
  | (h, f) :: rest => if height ≤ h then f else maxRefsScan height rest

/-- `self.max_refs` as computed by `VideoProcessor._init_stream` from a
height-threshold mapping and the stream height. -/
def videoMaxRefs (maxRefsMap : List (Nat × Nat)) (height : Nat) : Nat :=
  maxRefsScan height (sortPairsByKey maxRefsMap)

/-- `VideoProcessor.must_convert`: the base codec check
(`self.codec not in self.allowed_codecs`) or too many reference frames
(`self.refs > self.max_refs`). -/
def videoMustConvert (codec : String) (allowedCodecs : List String)
    (refs maxRefs : Nat) : Bool :=
  !(allowedCodecs.contains codec) || decide (refs > maxRefs)

/-- Values stored in a profile section dict (`profiles.ROKU[...]`). -/
inductive PVal where
  | str (s : String)
  | num (n : Nat)
  | strList (l : List String)
  | natMap (m : List (Nat × Nat))
deriving Repr, DecidableEq

/-- Errors raised by the modelled Python dict/attribute operations. -/
inductive PyErr where
  | keyError (k : String)
  | attributeError (msg : String)
  | indexError
deriving Repr, DecidableEq

/-- A Python dict with string keys, as an association list. -/
def PDict : Type := List (String × PVal)

/-- Python `d[k]`: the stored value, or a KeyError. -/
def pget (d : PDict) (k : String) : Except PyErr PVal :=
  match List.find? (fun p => p.1 = k) d with
  | some p => .ok p.2
  | none => .error (.keyError k)

/-- Python `d[k]` expected to be a string. -/
def pgetStr (d : PDict) (k : String) : Except PyErr String := do
  match ← pget d k with
  | .str s => pure s
  | _ => .error (.attributeError "unexpected value shape")

/-- Python `d[k]` expected to be an int. -/
def pgetNum (d : PDict) (k : String) : Except PyErr Nat := do
  match ← pget d k with
  | .num n => pure n
  | _ => .error (.attributeError "unexpected value shape")

/-- Python `d[k]` expected to be a list of strings. -/
def pgetStrList (d : PDict) (k : String) : Except PyErr (List String) := do
  match ← pget d k with
  | .strList l => pure l
  | _ => .error (.attributeError "unexpected value shape")

/-- Python `v.items()` on a profile value: only a dict has `.items()`;
on the int `4` stored by the ROKU profile this raises AttributeError. -/
def itemsOf : PVal → Except PyErr (List (Nat × Nat))
  | .natMap m => .ok m
  | .num _ => .error (.attributeError "int object has no attribute items")
  | .str _ => .error (.attributeError "str object has no attribute items")
  | .strList _ => .error (.attributeError "list object has no attribute items")

/-- `profiles.ROKU['video']`. -/
def ROKU_video : PDict :=
  [("codecs", .strList ["h264"]), ("container", .str "mp4"),
   ("profile", .str "high"), ("level", .str "4.1"),
   ("max_refs", .num 4), ("quality", .num 21), ("preset", .str "slow")]

/-- `profiles.ROKU['audio']`. -/
def ROKU_audio : PDict :=
  [("codecs", .strList ["mp3", "aac", "flac"]), ("container", .str "mp3"),
   ("channels", .num 2), ("quality", .num 2)]

/-- `profiles.ROKU['subtitle']`. -/
def ROKU_subtitle : PDict :=
  [("codecs", .strList ["srt"]), ("container", .str "srt"),
   ("encodings", .strList ["utf-8", "iso-8859-1"])]

/-- A probed stream dict as seen by the stream processors. Optional fields
model keys that may be absent from the probed JSON. -/
structure ProbedStream where
  index : Nat
  codec_name : String
  tagLanguage : Option String
  height : Option Nat
  refs : Nat
  channels : Nat
deriving Repr, DecidableEq

/-- `StreamProcessor.__init__` language normalization:
`stream.get('tags', {}).get('language')`, then the `und` sentinel is
replaced by `None`. -/
def initLanguage (tag : Option String) : Option String :=
  if tag = some "und" then none else tag

/-- The fields of a constructed `VideoProcessor` that the claims refer to. -/
structure VideoProc where
  index : Nat
  codec : String
  language : Option String
  allowed_codecs : List String
  target_codec : String
  target_container : String
  output : String
  refs : Nat
  max_refs : Nat
  target_profile : String
  target_level : String
  target_preset : String
  target_quality : Nat
deriving Repr, DecidableEq

/-- The fields of a constructed `AudioProcessor` that the claims refer to. -/
structure AudioProc where
  index : Nat
  codec : String
  language : Option String
  allowed_codecs : List String
  target_codec : String
  target_container : String
  output : String
  channels : Nat
  max_channels : Nat
  target_quality : Nat
deriving Repr, DecidableEq

/-- `VideoProcessor(in_file, stream, profile)`: the base
`StreamProcessor.__init__` followed by `VideoProcessor._init_stream`,
with each dict access modelled as a fallible lookup. -/
def videoProcessorNew (stream : ProbedStream) (videoSection : PDict) :
    Except PyErr VideoProc := do
  let codecs ← pgetStrList videoSection "codecs"
  let target_codec ← match codecs with
    | c :: _ => pure c
    | [] => Except.error .indexError
  let container ← pgetStr videoSection "container"
  -- _init_stream
  let height ← match stream.height with
    | some h => pure h
    | none => Except.error (.keyError "height")
  let mrVal ← pget videoSection "max_refs"
  let mrMap ← itemsOf mrVal
  let tProfile ← pgetStr videoSection "profile"
  let tLevel ← pgetStr videoSection "level"
  let tPreset ← pgetStr videoSection "preset"
  let tQuality ← pgetNum videoSection "quality"
  pure { index := stream.index, codec := stream.codec_name,
         language := initLanguage stream.tagLanguage,
         allowed_codecs := codecs, target_codec := target_codec,
         target_container := container,
         output := "video-" ++ toString stream.index ++ "." ++ container,
         refs := stream.refs, max_refs := videoMaxRefs mrMap height,
         target_profile := tProfile, target_level := tLevel,
         target_preset := tPreset, target_quality := tQuality }

/-- `AudioProcessor(in_file, stream, profile)`: the base
`StreamProcessor.__init__` followed by `AudioProcessor._init_stream`
(which reads `profile['audio']['max_channels']`). -/
def audioProcessorNew (stream : ProbedStream) (audioSection : PDict) :
    Except PyErr AudioProc := do
  let codecs ← pgetStrList audioSection "codecs"
  let target_codec ← match codecs with
    | c :: _ => pure c
    | [] => Except.error .indexError
  let container ← pgetStr audioSection "container"
  -- _init_stream
  let maxChannels ← pgetNum audioSection "max_channels"
  let tQuality ← pgetNum audioSection "quality"
  pure { index := stream.index, codec := stream.codec_name,
         language := initLanguage stream.tagLanguage,
         allowed_codecs := codecs, target_codec := target_codec,
         target_container := container,
         output := "audio-" ++ toString stream.index ++ "." ++ container,
         channels := stream.channels, max_channels := maxChannels,
         target_quality := tQuality }

/-- External invocations a stream processor can perform while processing. -/
inductive StreamEvent where
  | convertInvoked
  | cleanupInvoked
deriving Repr, DecidableEq

/-- `StreamProcessor.process`, with the convert/clean-up external work
abstracted as trace events: when `must_convert` holds, `convert()` then
`clean_up()` run and the result points at the new single-stream artifact
(`self.input = self.output; self.index = 0`); otherwise the result carries
the original file, index and language unchanged and nothing runs. The
result dict gets a `language` key only when the language is truthy. -/
def streamProcess (mustConvert : Bool) (input output : String) (index : Nat)
    (language : Option String) : ConversionResult × List StreamEvent :=
  if mustConvert then
    ({ input := output, index := 0,
       language := if truthyStr language then language else none },
     [.convertInvoked, .cleanupInvoked])
  else
    ({ input := input, index := index,
       language := if truthyStr language then language else none },
     [])

/-- `execute_cmd` lower-cases the entire captured output
(`output.decode('utf-8').lower()`), so every probed tag value reaches
`StreamProcessor.__init__` lower-cased. -/
def probeTag (raw : Option String) : Option String :=
  raw.map (fun s => s.toLower)

/-- Outcome of one external `ffmpeg -sub_charenc <enc> ...` extraction
attempt: success, a `CalledProcessError` (non-zero exit status, absorbed by
the fallback loop), or a hard `ValueError` raised by `execute_cmd` on an
`Error` marker in the output (not absorbed by the loop). -/
inductive AttemptOutcome where
  | success
  | calledProcessError
  | hardError (msg : String)
deriving Repr, DecidableEq

/-- Errors that `SubtitleProcessor.convert` lets escape. -/
inductive ConvError where
  | extractionFailed (index : Nat)
  | hard (msg : String)
deriving Repr, DecidableEq

/-- `SubtitleProcessor.convert`, with each encoding's extraction outcome
given by the oracle `outcomeOf`. Returns (output artifact exists on disk,
encodings attempted in order, error raised if any). An attempt that fails
with `CalledProcessError` leaves a partial output file which the `except`
branch removes (`rm self.output`) before trying the next encoding; a
successful attempt returns; a hard error propagates at once; exhausting all
encodings raises `ValueError('Could not extract stream 0:<index>')`. -/
def subtitleConvert (index : Nat) (outcomeOf : String → AttemptOutcome) :
    List String → Bool × List String × Option ConvError
  | [] => (false, [], some (.extractionFailed index))
  | enc :: rest =>
    match outcomeOf enc with
    | .success => (true, [enc], none)
    | .hardError m => (true, [enc], some (.hard m))
    | .calledProcessError =>
        let r := subtitleConvert index outcomeOf rest
        (r.1, enc :: r.2.1, r.2.2)

/-- `SubtitleProcessor.process`: `must_convert` is the class constant
`True`, so `convert()` always runs; a conversion error propagates out of
`process()`; on success the in-place sed markup clean-up runs and the
result points at the new artifact with index 0. Returns
(result or error, output artifact exists, attempted encodings). -/
def subtitleProcess (index : Nat) (language : Option String)
    (output : String) (outcomeOf : String → AttemptOutcome)
    (encodings : List String) :
    Except ConvError ConversionResult × Bool × List String :=
  let r := subtitleConvert index outcomeOf encodings
  match r.2.2 with
  | some e => (.error e, r.1, r.2.1)
  | none =>
      (.ok { input := output, index := 0,
             language := if truthyStr language then language else none },
       r.1, r.2.1)

/-- The merge output target `self.output or self.tmp_file` (Python `or`:
`None` and the empty string both fall back to `'tmp.mkv'`). -/
def resolveMergeOutput (output : Option String) : String :=
  match output with
  | some o => if o = "" then "tmp.mkv" else o
  | none => "tmp.mkv"

/-- `FileProcessor._build_merge_command`: a non-empty command is built only
when more than one distinct input file is involved. -/
def buildMergeCommand (inputs maps meta : List String) (output : String) :
    List String :=
  if 1 < inputs.length then
    ["ffmpeg"] ++ inputs.flatMap (fun f => ["-i", f])
      ++ maps.flatMap (fun m => ["-map", m]) ++ meta ++ ["-c", "copy"]
      ++ [output]
  else []

/-- What `FileProcessor.merge` returned and did: the cleanup list, the merge
command it built, whether it invoked the command, and the error it
recorded. -/
structure MergeOutcome where
  cleanup : List String
  cmd : List String
  invoked : Bool
  error : Option String
deriving Repr, DecidableEq

/-- `FileProcessor.merge`, with the external `ffmpeg` invocation's outcome
given by the `mergeFails` oracle. On failure `cmd[-1]` (the attempted merge
output path) is appended to the inputs; the original input file is then
removed from the list (Python `list.remove`: first occurrence) before it is
returned for cleanup. -/
def fileMerge (input : String) (output : Option String) (mergeFails : Bool)
    (streams : List ConversionResult) : MergeOutcome :=
  let p := buildMergeParams streams
  let cmd := buildMergeCommand p.1 p.2.1 p.2.2 (resolveMergeOutput output)
  let st :=
    if cmd = [] then (p.1, false, (none : Option String))
    else if mergeFails then
      (p.1 ++ [cmd.getLastD ""], true, some "merge failed")
    else (p.1, true, none)
  let inputs2 := if input ∈ st.1 then st.1.erase input else st.1
  { cleanup := inputs2, cmd := cmd, invoked := st.2.1, error := st.2.2 }

/-- Per-stream dispatch outcome inside `FileProcessor.process_streams`: the
matching processor returns a result, raises, or no processor matches the
media type and the stream is skipped. -/
inductive StreamOutcome where
  | ok (res : ConversionResult)
  | fail (msg : String)
  | skip
deriving Repr, DecidableEq

/-- Observable pipeline events of `FileProcessor.process`. -/
inductive PEvent where
  | dispatch (i : Nat)
  | mergeInvoked
  | replaceOriginal
  | cleanup (files : List String)
  | raised (e : String)
  | done
deriving Repr, DecidableEq

/-- `FileProcessor.process_streams`: dispatch each probed stream in order to
its processor; the first raising stream sets `self.error` and stops the
loop; skipped streams contribute nothing. Returns (collected results,
recorded error, dispatch events), `i` being the probed position of the
first stream of the list. -/
def processStreams : List StreamOutcome → Nat →
    List ConversionResult × Option String × List PEvent
  | [], _ => ([], none, [])
  | .skip :: rest, i => processStreams rest (i + 1)
  | .ok r :: rest, i =>
      let t := processStreams rest (i + 1)
      (r :: t.1, t.2.1, .dispatch i :: t.2.2)
  | .fail m :: _, i => ([], some m, [.dispatch i])

/-- The error-branch cleanup candidates of `FileProcessor.process`:
`{s['input'] for s in processed_streams}.difference([self.input])`, the
set modelled as the first-occurrence de-duplicated list with the original
input filtered out. -/
def errorCleanupSet (input : String) (results : List ConversionResult) :
    List String :=
  (dedupFOFrom [] (results.map (fun r => r.input))).filter (fun f => f ≠ input)

/-- `FileProcessor.process` after probing: dispatch the streams, then either
collect the artifact set for cleanup (error case) or merge; replace the
original when no explicit output was requested and no error occurred;
clean up when there is anything to clean; finally re-raise the recorded
error. Returns the event trace and the raised error. -/
def fileProcess (input : String) (output : Option String) (mergeFails : Bool)
    (outcomes : List StreamOutcome) : List PEvent × Option String :=
  let d := processStreams outcomes 0
  let results := d.1
  let step : List String × List PEvent × Option String :=
    match d.2.1 with
    | some e => (errorCleanupSet input results, ([] : List PEvent), some e)
    | none =>
        let m := fileMerge input output mergeFails results
        (m.cleanup, if m.invoked then [PEvent.mergeInvoked] else [], m.error)
  let inputs := step.1
  let err := step.2.2
  let cleanupEvs :=
    if inputs ≠ [] then
      (if !truthyStr output && err.isNone then [PEvent.replaceOriginal]
       else []) ++ [PEvent.cleanup inputs]
    else []
  let finalEv := match err with
    | some e => [PEvent.raised e]
    | none => [PEvent.done]
  (d.2.2 ++ step.2.1 ++ cleanupEvs ++ finalEv, err)

/-- `main.process`: parse the CLI arguments and run the file processor.
`--debug` only raises the logger verbosity
(`if args.debug: logger.setLevel(logging.DEBUG)`); the flag is never passed
to `FileProcessor`. The second component records the raised verbosity. -/
def cliProcess (debug : Bool) (input : String) (output : Option String)
    (mergeFails : Bool) (outcomes : List StreamOutcome) :
    (List PEvent × Option String) × Bool :=
  (fileProcess input output mergeFails outcomes, debug)

/-- Is this dispatch outcome a processor failure? -/
def isFail : StreamOutcome → Bool
  | .fail _ => true
  | _ => false

/-- Specification-side: the results collected from a failure-free outcome
prefix. -/
def okResults : List StreamOutcome → List ConversionResult :=
  List.filterMap fun o => match o with
    | .ok r => some r
    | _ => none

/-- Specification-side: the dispatch events of a failure-free outcome
prefix starting at probed position `i`. -/
def preDispatch (i : Nat) : List StreamOutcome → List PEvent
  | [] => []
  | .skip :: rest => preDispatch (i + 1) rest
  | _ :: rest => .dispatch i :: preDispatch (i + 1) rest

lemma dedupFOFrom_mem {seen : List String} {l : List String} {x : String} :
    x ∈ dedupFOFrom seen l ↔ x ∈ l ∧ x ∉ seen := by
  induction l generalizing seen with
  | nil => simp [dedupFOFrom]
  | cons a as ih =>
    simp only [dedupFOFrom]
    by_cases ha : a ∈ seen
    · simp only [if_pos ha, ih, List.mem_cons]
      constructor
      · rintro ⟨hx, hs⟩; exact ⟨Or.inr hx, hs⟩
      · rintro ⟨hx | hx, hs⟩
        · exact absurd (hx ▸ ha) hs
        · exact ⟨hx, hs⟩
    · rw [if_neg ha]
      simp only [List.mem_cons, ih, List.mem_append, List.mem_singleton]
      constructor
      · rintro (rfl | ⟨hx, hs⟩)
        · exact ⟨Or.inl rfl, ha⟩
        · exact ⟨Or.inr hx, fun h => hs (Or.inl h)⟩
      · rintro ⟨rfl | hx, hs⟩
        · exact Or.inl rfl
        · by_cases hxa : x = a
          · exact Or.inl hxa
          · exact Or.inr ⟨hx, by simp [hs, hxa]⟩

lemma dedupFOFrom_nodup (seen : List String) (l : List String) :
    (dedupFOFrom seen l).Nodup := by
  induction l generalizing seen with
  | nil => simp [dedupFOFrom]
  | cons a as ih =>
    simp only [dedupFOFrom]
    by_cases ha : a ∈ seen
    · simpa [ha] using ih seen
    · rw [if_neg ha]
      refine List.nodup_cons.2 ⟨?_, ih (seen ++ [a])⟩
      intro hmem
      exact absurd (dedupFOFrom_mem.1 hmem).2 (by simp)

/-- Invariant of the `_build_merge_params` loop, generalized over the
accumulated state. -/
lemma buildMergeParamsAux_spec (streams : List ConversionResult)
    (inputs maps meta : List String) :
    buildMergeParamsAux streams inputs maps meta =
      (inputs ++ dedupFOFrom inputs (streams.map (·.input)),
       maps ++ specMaps (inputs ++ dedupFOFrom inputs (streams.map (·.input)))
         streams,
       meta ++ specMeta maps.length streams) := by
  induction streams generalizing inputs maps meta with
  | nil => simp [buildMergeParamsAux, dedupFOFrom, specMaps, specMeta]
  | cons s rest ih =>
    simp only [buildMergeParamsAux, List.map_cons]
    by_cases hs : s.input ∈ inputs
    · rw [if_pos hs, ih]
      have hded : dedupFOFrom inputs (s.input :: rest.map (·.input)) =
          dedupFOFrom inputs (rest.map (·.input)) := by
        simp [dedupFOFrom, hs]
      rw [hded]
      refine congrArg₂ Prod.mk rfl (congrArg₂ Prod.mk ?_ ?_)
      · -- maps component
        simp only [specMaps, List.map_cons, List.append_assoc,
          List.singleton_append]
        have hidx : (inputs ++ dedupFOFrom inputs
            (rest.map (·.input))).indexOf s.input = inputs.indexOf s.input :=
          List.indexOf_append_of_mem hs
        simp [mapDirective, hidx]
      · -- meta component
        simp only [specMeta, List.length_append, List.length_singleton,
          List.append_assoc]
        congr 1
    · rw [if_neg hs, ih]
      have hded : dedupFOFrom inputs (s.input :: rest.map (·.input)) =
          s.input :: dedupFOFrom (inputs ++ [s.input]) (rest.map (·.input)) := by
        simp [dedupFOFrom, hs]
      rw [hded]
      have hfin : inputs ++ s.input ::
          dedupFOFrom (inputs ++ [s.input]) (rest.map (·.input)) =
          (inputs ++ [s.input]) ++
            dedupFOFrom (inputs ++ [s.input]) (rest.map (·.input)) := by
        simp
      refine congrArg₂ Prod.mk hfin.symm (congrArg₂ Prod.mk ?_ ?_)
      · simp only [specMaps, List.map_cons, List.append_assoc,
          List.singleton_append]
        have hmem : s.input ∈ inputs ++ [s.input] := by simp
        have hidx : ((inputs ++ [s.input]) ++
            dedupFOFrom (inputs ++ [s.input])
              (rest.map (·.input))).indexOf s.input =
            (inputs ++ [s.input]).indexOf s.input :=
          List.indexOf_append_of_mem hmem
        rw [← hfin] at hidx
        simp [mapDirective, hidx]
      · simp only [specMeta, List.length_append, List.length_singleton,
          List.append_assoc]
        congr 1

/-- C1: `_build_merge_params` produces the de-duplicated input list in
first-occurrence order, one map directive per stream in stream order whose
input index is the position of the stream's file in that list, and language
metadata attached by map-slot index; on the example streams
[video#0 (no convert), audio#1 → audio-1.mp3 (lang=spa),
subtitle#2 (no convert, lang=eng)] this yields maps ["0:0","1:0","0:2"] with
language spa on slot 1 and eng on slot 2. -/
theorem merge_params_build_correct :
    (∀ streams : List ConversionResult,
        buildMergeParams streams =
          (specInputs streams, specMaps (specInputs streams) streams,
           specMeta 0 streams)) ∧
    buildMergeParams exampleMergeStreams =
      (["movie.mkv", "audio-1.mp3"],
       ["0:0", "1:0", "0:2"],
       ["-metadata:s:1", "language=spa", "-metadata:s:2", "language=eng"]) := by
  constructor
  · intro streams
    have h := buildMergeParamsAux_spec streams [] [] []
    simpa [buildMergeParams, specInputs] using h
  · decide

lemma maxRefsScan_eq_find (height : Nat) (l : List (Nat × Nat)) :
    maxRefsScan height l =
      (l.find? (fun p => decide (height ≤ p.1))).elim 4 (·.2) := by
  induction l with
  | nil => simp [maxRefsScan, List.find?]
  | cons p rest ih =>
    obtain ⟨h, f⟩ := p
    by_cases hh : height ≤ h
    · simp [maxRefsScan, List.find?, hh]
    · simp [maxRefsScan, List.find?, hh, ih]

/-- C2: the applicable reference-frame limit is the limit of the first entry,
in ascending height order, whose height threshold is `≥` the stream height
(default 4 when none matches), and `VideoProcessor.must_convert` is true
exactly when the codec is not allowed or the reference-frame count exceeds
that limit; for mapping `{480: 6, 720: 4}` with allowed codec `h264` and 5
reference frames: height 720 must convert, height 480 must not, height 1080
must convert. -/
theorem video_refs_bucketing :
    (∀ (m : List (Nat × Nat)) (height : Nat),
        videoMaxRefs m height =
          ((sortPairsByKey m).find? (fun p => decide (height ≤ p.1))).elim
            4 (·.2)) ∧
    (∀ m : List (Nat × Nat),
        (sortPairsByKey m).Sorted (fun a b => a.1 ≤ b.1) ∧
        (sortPairsByKey m).Perm m) ∧
    videoMustConvert "h264" ["h264"] 5 (videoMaxRefs [(480, 6), (720, 4)] 720)
      = true ∧
    videoMustConvert "h264" ["h264"] 5 (videoMaxRefs [(480, 6), (720, 4)] 480)
      = false ∧
    videoMustConvert "h264" ["h264"] 5 (videoMaxRefs [(480, 6), (720, 4)] 1080)
      = true := by
  refine ⟨fun m height => maxRefsScan_eq_find height _, fun m => ⟨?_, ?_⟩,
    by decide, by decide, by decide⟩
  · letI : IsTotal (Nat × Nat) (fun a b => a.1 ≤ b.1) :=
      ⟨fun a b => Nat.le_total a.1 b.1⟩
    letI : IsTrans (Nat × Nat) (fun a b => a.1 ≤ b.1) :=
      ⟨fun _ _ _ hab hbc => Nat.le_trans hab hbc⟩
    exact List.sorted_insertionSort _ m
  · exact List.perm_insertionSort _ m

/-- C10: constructing an audio or a video stream processor from the bundled
ROKU profile fails: the audio section stores the channel limit under
`channels` while `AudioProcessor._init_stream` reads `max_channels`
(KeyError), and the video section stores `max_refs` as the int `4` while
`VideoProcessor._init_stream` iterates `max_refs.items()` (AttributeError). -/
theorem roku_profile_shape_mismatch :
    audioProcessorNew ⟨1, "aac", none, none, 0, 2⟩ ROKU_audio =
      .error (.keyError "max_channels") ∧
    videoProcessorNew ⟨0, "h264", none, some 720, 4, 0⟩ ROKU_video =
      .error (.attributeError "int object has no attribute items") := by
  constructor <;> rfl

/-- C6 counterexample: a no-op stream (`must_convert` false) whose probed
language tag is the empty string: `process()` drops the empty tag from the
result dict (Python truthiness), so the result is not identical to the
input descriptor and the claimed "unchanged language" fails at this
input. -/
theorem noop_pass_empty_tag_counterexample :
    streamProcess false "movie.mkv" "audio-1.mp3" 1 (some "") ≠
      ({ input := "movie.mkv", index := 1, language := some "" }, []) ∧
    (streamProcess false "movie.mkv" "audio-1.mp3" 1 (some "")).1.language
      = none := by
  decide

/-- C6 (amended): when `must_convert` is false and the stream's language is
absent or non-empty, `process()` returns a result carrying the original
source file, the original stream index and the unchanged language, and
performs no external invocation (neither convert nor clean-up runs); a
present-but-empty language tag is the one exception, dropped from the
result by the truthiness check. -/
theorem noop_pass_identity (mc : Bool) (input output : String) (index : Nat)
    (language : Option String) (hmc : mc = false)
    (hl : language ≠ some "") :
    streamProcess mc input output index language =
      ({ input := input, index := index, language := language }, []) := by
  subst hmc
  cases language with
  | none => simp [streamProcess, truthyStr]
  | some s =>
    have hs : s ≠ "" := fun h => hl (by rw [h])
    simp [streamProcess, truthyStr, hs]

/-- Witness for `noop_pass_identity` at a concrete compliant stream. -/
theorem noop_pass_identity_witness :
    streamProcess false "movie.mkv" "video-0.mp4" 0 (some "eng") =
      ({ input := "movie.mkv", index := 0, language := some "eng" }, []) :=
  noop_pass_identity false "movie.mkv" "video-0.mp4" 0 (some "eng") rfl
    (by decide)

/-- C8 counterexample: a descriptor whose probed language tag is the empty
string carries a tag value other than the `und` sentinel, yet `process()`
returns a result with no language field instead of passing the tag through:
the claimed pass-through fails at this input. -/
theorem language_passthrough_counterexample :
    (streamProcess false "movie.mkv" "subtitle-2.srt" 2
        (initLanguage (some ""))).1.language = none ∧
    ¬ ((streamProcess false "movie.mkv" "subtitle-2.srt" 2
        (initLanguage (some ""))).1.language = some "") := by
  have h0 : (streamProcess false "movie.mkv" "subtitle-2.srt" 2
      (initLanguage (some ""))).1.language = none := by
    simp [streamProcess, initLanguage, truthyStr]
  rw [h0]
  exact ⟨rfl, fun h => Option.noConfusion h⟩

/-- C8 (amended): probed tags are lower-cased by `execute_cmd`; a tag whose
normalized form is the `und` sentinel or the empty string yields a result
with no language field; any other tag value is passed through verbatim,
case-normalized, in the result. -/
theorem language_filtering (mc : Bool) (input output : String) (index : Nat)
    (raw : String) :
    (streamProcess mc input output index
        (initLanguage (probeTag (some raw)))).1.language =
      (if raw.toLower = "und" ∨ raw.toLower = "" then none
       else some raw.toLower) := by
  by_cases h1 : raw.toLower = "und" <;>
    by_cases h2 : raw.toLower = "" <;>
      cases mc <;>
        simp [streamProcess, initLanguage, probeTag, truthyStr, h1, h2]

lemma subtitleConvert_all_fail (index : Nat)
    (outcomeOf : String → AttemptOutcome) (encodings : List String)
    (hfail : ∀ e ∈ encodings, outcomeOf e = .calledProcessError) :
    subtitleConvert index outcomeOf encodings =
      (false, encodings, some (.extractionFailed index)) := by
  induction encodings with
  | nil => simp [subtitleConvert]
  | cons e rest ih =>
    have he : outcomeOf e = .calledProcessError := hfail e (by simp)
    have ih1 := ih (fun x hx => hfail x (by simp [hx]))
    simp [subtitleConvert, he, ih1]

/-- C5: for a non-empty candidate-encodings list in which every extraction
attempt fails as a command failure, the subtitle converter tries each
encoding in list order, each failing attempt deletes the partial output,
and `process()` fails with the extraction error with no output artifact
left on disk. -/
theorem subtitle_fallback_exhaustion (index : Nat)
    (language : Option String) (output : String)
    (outcomeOf : String → AttemptOutcome) (encodings : List String)
    (hne : encodings ≠ [])
    (hfail : ∀ e ∈ encodings, outcomeOf e = .calledProcessError) :
    subtitleProcess index language output outcomeOf encodings =
      (.error (.extractionFailed index), false, encodings) := by
  simp [subtitleProcess,
    subtitleConvert_all_fail index outcomeOf encodings hfail]

/-- Witness for `subtitle_fallback_exhaustion`: candidate encodings
`["utf-8", "iso-8859-1"]`, both attempts failing. -/
theorem subtitle_fallback_exhaustion_witness :
    subtitleProcess 2 (some "eng") "subtitle-2.srt"
        (fun _ => .calledProcessError) ["utf-8", "iso-8859-1"] =
      (.error (.extractionFailed 2), false, ["utf-8", "iso-8859-1"]) :=
  subtitle_fallback_exhaustion 2 (some "eng") "subtitle-2.srt"
    (fun _ => .calledProcessError) ["utf-8", "iso-8859-1"] (by decide)
    (fun _ _ => rfl)

lemma nodup_all_eq_singleton {l : List String} {a : String}
    (hnd : l.Nodup) (hall : ∀ x ∈ l, x = a) : l = [] ∨ l = [a] := by
  cases l with
  | nil => exact Or.inl rfl
  | cons x xs =>
    have hx : x = a := hall x (List.mem_cons_self x xs)
    have hxs : xs = [] := by
      cases xs with
      | nil => rfl
      | cons y ys =>
        have hy : y = a := hall y (by simp)
        have hnm : x ∉ y :: ys := (List.nodup_cons.1 hnd).1
        exact absurd (by rw [hx, ← hy]; exact List.mem_cons_self y ys) hnm
    exact Or.inr (by rw [hx, hxs])

lemma buildMergeParams_fst (streams : List ConversionResult) :
    (buildMergeParams streams).1 = specInputs streams := by
  rw [buildMergeParams, buildMergeParamsAux_spec]
  simp [specInputs]

/-- C7: when every processed-stream result references the original input
file, `merge()` builds no command, performs no invocation, records no
error, and returns an empty cleanup set. -/
theorem single_input_short_circuit (input : String)
    (output : Option String) (mergeFails : Bool)
    (streams : List ConversionResult)
    (hall : ∀ s ∈ streams, s.input = input) :
    fileMerge input output mergeFails streams =
      { cleanup := [], cmd := [], invoked := false, error := none } := by
  have hmem : ∀ x ∈ specInputs streams, x = input := by
    intro x hx
    have hx1 := (dedupFOFrom_mem.1 hx).1
    obtain ⟨s, hs, rfl⟩ := List.mem_map.1 hx1
    exact hall s hs
  have hnd : (specInputs streams).Nodup := by
    unfold specInputs
    exact dedupFOFrom_nodup _ _
  rcases nodup_all_eq_singleton hnd hmem with h | h <;>
    simp [fileMerge, buildMergeParams_fst, h, buildMergeCommand,
      List.erase_cons_head]

/-- Witness for `single_input_short_circuit`: three untouched streams of
`movie.mkv`. -/
theorem single_input_short_circuit_witness :
    fileMerge "movie.mkv" none false
        [⟨"movie.mkv", 0, none⟩, ⟨"movie.mkv", 1, some "spa"⟩,
         ⟨"movie.mkv", 2, some "eng"⟩] =
      { cleanup := [], cmd := [], invoked := false, error := none } :=
  single_input_short_circuit "movie.mkv" none false
    [⟨"movie.mkv", 0, none⟩, ⟨"movie.mkv", 1, some "spa"⟩,
     ⟨"movie.mkv", 2, some "eng"⟩]
    (by intro s hs; fin_cases hs <;> rfl)

lemma getLastD_merge_cmd (A B C : List String) (out : String) :
    ("ffmpeg" :: (A ++ (B ++ (C ++ ["-c", "copy", out])))).getLast?.getD ""
      = out := by
  have hrw : "ffmpeg" :: (A ++ (B ++ (C ++ (["-c", "copy", out] :
      List String)))) =
      ("ffmpeg" :: (A ++ (B ++ (C ++ ["-c", "copy"])))) ++ [out] := by simp
  rw [hrw, List.getLast?_concat]
  rfl

lemma not_mem_erase_self_append {l : List String} {a b : String}
    (hnd : l.Nodup) (hb : b ≠ a) : a ∉ (l ++ [b]).erase a := by
  intro hmem
  have h1 : List.count a l ≤ 1 := List.nodup_iff_count_le_one.1 hnd a
  have h2 : List.count a [b] = 0 := by
    simp [List.count_singleton', hb]
  have h3 : List.count a ((l ++ [b]).erase a) = 0 := by
    rw [List.count_erase_self, List.count_append, h2]
    omega
  have h4 := List.count_pos_iff.2 hmem
  omega

lemma specInputs_mem {streams : List ConversionResult} {x : String} :
    x ∈ specInputs streams ↔ x ∈ streams.map (·.input) := by
  unfold specInputs
  rw [dedupFOFrom_mem]
  simp

/-- C4: when the results reference more than one distinct file and the merge
invocation fails, the cleanup list returned by `merge()` contains every
per-stream temporary artifact referenced by the results and the path that
was passed to the merge command as its output, and does not contain the
original input file (assuming the merge output path differs from it). -/
theorem merge_failure_cleanup (input : String) (output : Option String)
    (streams : List ConversionResult)
    (hmulti : 1 < (specInputs streams).length)
    (hout : resolveMergeOutput output ≠ input) :
    (∀ s ∈ streams, s.input ≠ input →
        s.input ∈ (fileMerge input output true streams).cleanup) ∧
    resolveMergeOutput output ∈ (fileMerge input output true streams).cleanup ∧
    input ∉ (fileMerge input output true streams).cleanup ∧
    (fileMerge input output true streams).error = some "merge failed" := by
  have hnd : (specInputs streams).Nodup := by
    unfold specInputs
    exact dedupFOFrom_nodup _ _
  have hshape : (fileMerge input output true streams).cleanup =
      (if input ∈ specInputs streams ++ [resolveMergeOutput output] then
        (specInputs streams ++ [resolveMergeOutput output]).erase input
       else specInputs streams ++ [resolveMergeOutput output]) ∧
      (fileMerge input output true streams).error = some "merge failed" := by
    simp only [fileMerge, buildMergeParams_fst, buildMergeCommand,
      if_pos hmulti]
    constructor <;> simp [getLastD_merge_cmd]
  obtain ⟨hcl, herr⟩ := hshape
  refine ⟨?_, ?_, ?_, herr⟩
  · intro s hs hne
    have hmem : s.input ∈ specInputs streams :=
      specInputs_mem.2 (List.mem_map_of_mem _ hs)
    rw [hcl]
    split_ifs with hin
    · exact (List.mem_erase_of_ne hne).2 (List.mem_append_left _ hmem)
    · exact List.mem_append_left _ hmem
  · have hmem : resolveMergeOutput output ∈
        specInputs streams ++ [resolveMergeOutput output] := by simp
    rw [hcl]
    split_ifs with hin
    · exact (List.mem_erase_of_ne hout).2 hmem
    · exact hmem
  · rw [hcl]
    split_ifs with hin
    · exact not_mem_erase_self_append hnd hout
    · exact hin

/-- Witness for `merge_failure_cleanup`: a converted audio stream next to
the untouched original, with the merge to `out.mkv` failing. -/
theorem merge_failure_cleanup_witness :
    "audio-1.mp3" ∈ (fileMerge "movie.mkv" (some "out.mkv") true
        [⟨"movie.mkv", 0, none⟩, ⟨"audio-1.mp3", 0, none⟩]).cleanup ∧
    "out.mkv" ∈ (fileMerge "movie.mkv" (some "out.mkv") true
        [⟨"movie.mkv", 0, none⟩, ⟨"audio-1.mp3", 0, none⟩]).cleanup ∧
    "movie.mkv" ∉ (fileMerge "movie.mkv" (some "out.mkv") true
        [⟨"movie.mkv", 0, none⟩, ⟨"audio-1.mp3", 0, none⟩]).cleanup := by
  have h := merge_failure_cleanup "movie.mkv" (some "out.mkv")
    [⟨"movie.mkv", 0, none⟩, ⟨"audio-1.mp3", 0, none⟩]
    (by decide) (by decide)
  exact ⟨h.1 ⟨"audio-1.mp3", 0, none⟩ (by simp) (by decide), h.2.1, h.2.2.1⟩

lemma processStreams_prefix_fail (post : List StreamOutcome) (m : String)
    (pre : List StreamOutcome) :
    ∀ i, (∀ o ∈ pre, isFail o = false) →
      processStreams (pre ++ .fail m :: post) i =
        (okResults pre, some m,
         preDispatch i pre ++ [.dispatch (i + pre.length)]) := by
  induction pre with
  | nil => intro i _; simp [processStreams, okResults, preDispatch]
  | cons o rest ih =>
    intro i hpre
    have hrest : ∀ x ∈ rest, isFail x = false :=
      fun x hx => hpre x (by simp [hx])
    cases o with
    | skip =>
      have harith : i + (rest.length + 1) = (i + 1) + rest.length := by omega
      simp only [List.cons_append, processStreams, List.append_eq,
        ih (i + 1) hrest, okResults, List.filterMap_cons, preDispatch,
        List.length_cons]
      rw [harith]
    | ok r =>
      have harith : i + (rest.length + 1) = (i + 1) + rest.length := by omega
      simp only [List.cons_append, processStreams, List.append_eq,
        ih (i + 1) hrest, okResults, List.filterMap_cons, preDispatch,
        List.length_cons]
      rw [harith]
    | fail msg =>
      have hcontra := hpre (.fail msg) (by simp)
      simp [isFail] at hcontra

lemma preDispatch_mem_lt (l : List StreamOutcome) :
    ∀ i j, PEvent.dispatch j ∈ preDispatch i l → j < i + l.length := by
  induction l with
  | nil => intro i j h; simp [preDispatch] at h
  | cons o rest ih =>
    intro i j h
    cases o with
    | skip =>
      simp only [preDispatch] at h
      have := ih (i + 1) j h
      simp only [List.length_cons]
      omega
    | ok r =>
      simp only [preDispatch] at h
      rcases List.mem_cons.1 h with he | ht
      · cases he; simp
      · have := ih (i + 1) j ht
        simp only [List.length_cons]
        omega
    | fail msg =>
      simp only [preDispatch] at h
      rcases List.mem_cons.1 h with he | ht
      · cases he; simp
      · have := ih (i + 1) j ht
        simp only [List.length_cons]
        omega

lemma fileProcess_error_shape (input : String) (output : Option String)
    (mergeFails : Bool) (outcomes : List StreamOutcome)
    (res : List ConversionResult) (m : String) (evs : List PEvent)
    (h : processStreams outcomes 0 = (res, some m, evs)) :
    fileProcess input output mergeFails outcomes =
      (evs ++ ((if errorCleanupSet input res = [] then []
                else [PEvent.cleanup (errorCleanupSet input res)])
        ++ [PEvent.raised m]), some m) := by
  simp only [fileProcess, h]
  by_cases hA : errorCleanupSet input res = [] <;> simp [hA]

/-- C3: once the first per-stream error is recorded, no later stream is
dispatched; each temporary artifact created by a stream converted before
the error (its result file when it differs from the original input) is
still handed to cleanup; and the recorded error is raised only after any
cleanup event, as the final event. -/
theorem error_halts_dispatch_then_cleans_then_raises (input : String)
    (output : Option String) (mergeFails : Bool)
    (pre post : List StreamOutcome) (m : String)
    (hpre : ∀ o ∈ pre, isFail o = false) :
    (∀ j, PEvent.dispatch j ∈
          (fileProcess input output mergeFails (pre ++ .fail m :: post)).1 →
        j ≤ pre.length) ∧
    (∀ r ∈ okResults pre, r.input ≠ input →
        ∃ fs, PEvent.cleanup fs ∈
            (fileProcess input output mergeFails (pre ++ .fail m :: post)).1
          ∧ r.input ∈ fs) ∧
    (∃ evs, (fileProcess input output mergeFails (pre ++ .fail m :: post)).1
          = evs ++ [PEvent.raised m] ∧
        ∀ fs, PEvent.cleanup fs ∈
            (fileProcess input output mergeFails (pre ++ .fail m :: post)).1
          → PEvent.cleanup fs ∈ evs) ∧
    (fileProcess input output mergeFails (pre ++ .fail m :: post)).2
      = some m := by
  have hps := processStreams_prefix_fail post m pre 0 hpre
  have hshape := fileProcess_error_shape input output mergeFails
    (pre ++ .fail m :: post) (okResults pre) m
    (preDispatch 0 pre ++ [.dispatch (0 + pre.length)]) hps
  refine ⟨?_, ?_, ?_, ?_⟩
  · intro j hj
    rw [hshape] at hj
    simp only [List.mem_append, List.mem_singleton] at hj
    rcases hj with ((h1 | h2) | (h3 | h4))
    · have := preDispatch_mem_lt pre 0 j h1
      omega
    · injection h2 with h2e
      omega
    · split_ifs at h3 <;> simp at h3
    · cases h4
  · intro r hr hne
    have hrA : r.input ∈ errorCleanupSet input (okResults pre) := by
      unfold errorCleanupSet
      refine List.mem_filter.2 ⟨?_, by simpa using hne⟩
      exact dedupFOFrom_mem.2 ⟨List.mem_map_of_mem _ hr, List.not_mem_nil _⟩
    have hAne : errorCleanupSet input (okResults pre) ≠ [] :=
      List.ne_nil_of_mem hrA
    refine ⟨errorCleanupSet input (okResults pre), ?_, hrA⟩
    rw [hshape]
    simp only [List.mem_append, List.mem_singleton]
    refine Or.inr (Or.inl ?_)
    rw [if_neg hAne]
    simp
  · refine ⟨(preDispatch 0 pre ++ [.dispatch (0 + pre.length)]) ++
      (if errorCleanupSet input (okResults pre) = [] then []
       else [PEvent.cleanup (errorCleanupSet input (okResults pre))]),
      ?_, ?_⟩
    · rw [hshape]
      simp [List.append_assoc]
    · intro fs hfs
      rw [hshape] at hfs
      simp only [List.mem_append, List.mem_singleton] at hfs ⊢
      rcases hfs with ((h1 | h2) | (h3 | h4))
      · exact Or.inl (Or.inl h1)
      · exact Or.inl (Or.inr h2)
      · exact Or.inr h3
      · cases h4
  · rw [hshape]

/-- Witness for `error_halts_dispatch_then_cleans_then_raises`: a converted
video stream precedes a failing audio stream, with one more stream after
the failure. -/
theorem error_halts_dispatch_witness :
    (∀ j, PEvent.dispatch j ∈
          (fileProcess "movie.mkv" none false
            ([.ok ⟨"video-0.mp4", 0, none⟩] ++
              .fail "boom" :: [.ok ⟨"movie.mkv", 2, none⟩])).1 →
        j ≤ 1) ∧
    (∃ fs, PEvent.cleanup fs ∈
        (fileProcess "movie.mkv" none false
          ([.ok ⟨"video-0.mp4", 0, none⟩] ++
            .fail "boom" :: [.ok ⟨"movie.mkv", 2, none⟩])).1
      ∧ "video-0.mp4" ∈ fs) ∧
    (fileProcess "movie.mkv" none false
        ([.ok ⟨"video-0.mp4", 0, none⟩] ++
          .fail "boom" :: [.ok ⟨"movie.mkv", 2, none⟩])).2
      = some "boom" := by
  have h := error_halts_dispatch_then_cleans_then_raises "movie.mkv" none
    false [.ok ⟨"video-0.mp4", 0, none⟩] [.ok ⟨"movie.mkv", 2, none⟩]
    "boom" (by intro o ho; fin_cases ho <;> rfl)
  exact ⟨h.1, h.2.1 ⟨"video-0.mp4", 0, none⟩ (by simp [okResults])
    (by decide), h.2.2.2⟩

/-- C9 (code bug): `main.process` never passes `--debug` to the file
processor, so the pipeline behaviour is identical with and without the
flag, and in particular a run with `--debug` still emits the cleanup of
its temporary artifacts — contradicting the flag's own help text
("skipping clean ups"). -/
theorem debug_flag_does_not_skip_cleanup :
    (∀ (debug : Bool) (input : String) (output : Option String)
        (mergeFails : Bool) (outcomes : List StreamOutcome),
        (cliProcess debug input output mergeFails outcomes).1 =
          (cliProcess false input output mergeFails outcomes).1) ∧
    PEvent.cleanup ["audio-1.mp3"] ∈
      (cliProcess true "movie.mkv" none false
        [.ok ⟨"movie.mkv", 0, none⟩, .ok ⟨"audio-1.mp3", 0, none⟩]).1.1 := by
  refine ⟨fun _ _ _ _ _ => rfl, ?_⟩
  decide

end FFConv
